import Mathlib

/-!
Verification of `scripts/claude_pexpect.py` — a process runner that spawns a
command under a pseudo-terminal, optionally delivers a prompt (as a trailing
argument in print mode, or as one input line otherwise), mirrors the child's
output to stdout and an optional capture file, and propagates the child's
exit status.

The script is embedded shallowly: `mainRun` maps the invocation (argv, the two
environment values) and a world (fault switches plus the child's observable
behaviour) to the runner's result — `none` models an unhandled fault
propagating out of `main`, `some n` a return value `n` — together with the
ordered trace of observable events (stderr writes, capture-file open/close,
spawn, sink writes and flushes, input lines sent, the wait for EOF).
-/

namespace ClaudePexpect

/-- The two relay sinks the `Tee` class fans out to: the real standard output
and the capture file. -/
inductive Sink
  | stdout
  | capture
  deriving DecidableEq

/-- Observable events of one invocation of `main`, in program order. -/
inductive Event
  | stderrLine (s : String)
  | openCapture (path : String)
  | spawn (prog : String) (args : List String)
  | write (sink : Sink) (data : String)
  | flush (sink : Sink)
  | sendline (s : String)
  | waitEOF
  | closeCapture
  deriving DecidableEq

/-- The usage line `main` prints to stderr when no command is given
(`print("Usage: claude_pexpect.py <claude_cmd> [args...]", file=sys.stderr)`). -/
def usageMessage : String := "Usage: claude_pexpect.py <claude_cmd> [args...]"

/-- Print-flag detection, `has_print = "--print" in cmd or "-p" in cmd`:
plain membership of the two
flag tokens anywhere in the command list. -/
def hasPrint (cmd : List String) : Bool :=
  cmd.contains "--print" || cmd.contains "-p"

/-- Python's `child.exitstatus or 0`: `None` and `0` are falsy and yield `0`;
any other status is returned unchanged. -/
def pyOrZero (exitstatus : Option Nat) : Nat :=
  match exitstatus with
  | none => 0
  | some n => if n == 0 then 0 else n

/-- The child's observable behaviour: the output chunks delivered to the relay
sink during the wait, and the exit status (`none` when the child was killed by
a signal and no exit status is available). -/
structure ChildBehavior where
  chunks : List String
  exitstatus : Option Nat

/-- One possible execution environment: which of the three fallible steps
fault (opening the capture file, spawning the child, the relay/wait including
`sendline`), how many chunks were already relayed when the wait faulted, and
the child's behaviour. -/
structure World where
  openFails : Bool
  spawnFails : Bool
  waitFails : Bool
  relayDone : Nat
  child : ChildBehavior

/-- The `Tee` class: a fan-out writer over a list of files
(`Tee(sys.stdout, capture_file)`). -/
structure Tee where
  files : List Sink

/-- The write method of `Tee`, `for f in self.files: f.write(data); f.flush()` — each
individual write is immediately followed by a flush of the same sink. -/
def Tee.write (t : Tee) (data : String) : List Event :=
  t.files.flatMap fun f => [Event.write f data, Event.flush f]

/-- The flush method of `Tee`, `for f in self.files: f.flush()`. -/
def Tee.flush (t : Tee) : List Event :=
  t.files.map Event.flush

/-- The sink list of the tee installed when a capture file is open:
`Tee(sys.stdout, capture_file)`. -/
def teeFiles : List Sink := [Sink.stdout, Sink.capture]

/-- The relay of a list of output chunks through `child.logfile`: with a
capture file open the logfile is the two-sink `Tee`; otherwise it is
`sys.stdout` directly (default flushing, so no per-write flush event). -/
def relayEvents (opened : Bool) (chunks : List String) : List Event :=
  if opened then chunks.flatMap (Tee.write ⟨teeFiles⟩)
  else chunks.map (Event.write Sink.stdout)

/-- Shallow embedding of `main` in `scripts/claude_pexpect.py`.

`argv` is `sys.argv` (element 0 is the runner's own name), `prompt` is
`COUNCIL_PROMPT` and `capturePath` is `COUNCIL_CAPTURE_PATH`, both defaulting
to `""` when unset; Python string truthiness makes `""` mean absent.

Result: `(none, trace)` when an unhandled fault propagates, `(some n, trace)`
when `main` returns `n`. The `finally` block closes the capture file, when
open, on every path out of the `try`. -/
def mainRun (argv : List String) (prompt capturePath : String) (w : World) :
    Option Nat × List Event :=
  if argv.length < 2 then
    (some 2, [Event.stderrLine usageMessage])
  else
    let cmd0 := argv.drop 1
    let hp := hasPrint cmd0
    let cmd := if prompt != "" && hp then cmd0 ++ [prompt] else cmd0
    if capturePath != "" && w.openFails then
      (none, [])
    else
      let opened := capturePath != ""
      let pre := if opened then [Event.openCapture capturePath] else []
      let fin := if opened then [Event.closeCapture] else []
      if w.spawnFails then
        (none, pre ++ fin)
      else
        let spawnE := Event.spawn (cmd.headD "") cmd.tail
        let sendE := if prompt != "" && !hp then [Event.sendline prompt] else []
        if w.waitFails then
          (none, pre ++ spawnE :: sendE
            ++ relayEvents opened (w.child.chunks.take w.relayDone) ++ fin)
        else
          (some (pyOrZero w.child.exitstatus),
            pre ++ spawnE :: sendE ++ relayEvents opened w.child.chunks
              ++ [Event.waitEOF] ++ fin)

/-- The commands spawned during a trace, each as `prog :: args`
(`pexpect.spawn(cmd[0], cmd[1:], ...)`). -/
def spawnedCmds (evts : List Event) : List (List String) :=
  evts.filterMap fun e =>
    match e with
    | Event.spawn p a => some (p :: a)
    | _ => none

/-- The lines sent to the child's input stream during a trace;
`child.sendline(s)` transmits `s` followed by a newline terminator. -/
def sentLines (evts : List Event) : List String :=
  evts.filterMap fun e =>
    match e with
    | Event.sendline s => some (s ++ "\n")
    | _ => none

/-- The sequence of data chunks written to a given sink during a trace. -/
def sinkWrites (s : Sink) (evts : List Event) : List String :=
  evts.filterMap fun e =>
    match e with
    | Event.write s' d => if s' == s then some d else none
    | _ => none

/-- Holds (is `true`) iff every write event in the trace is immediately followed by a
flush event of the same sink. -/
def writesFlushed : List Event → Bool
  | Event.write s _ :: Event.flush s' :: rest =>
    s == s' && writesFlushed (Event.flush s' :: rest)
  | Event.write _ _ :: _ => false
  | _ :: rest => writesFlushed rest
  | [] => true

/-- Filesystem semantics of the capture file at one path: `none` when it does
not exist; `openCapture` creates it with empty content (mode `"w"` truncates);
writes to the capture sink append. Contents are kept as the list of written
chunks; the decoded file text is their concatenation. -/
def fileStep (c : Option (List String)) (e : Event) : Option (List String) :=
  match e with
  | Event.openCapture _ => some []
  | Event.write Sink.capture d =>
    match c with
    | some t => some (t ++ [d])
    | none => none
  | _ => c

/-- The capture file's contents after a trace, starting from contents `c`. -/
def fileAfter (c : Option (List String)) : List Event → Option (List String)
  | [] => c
  | e :: l => fileAfter (fileStep c e) l

/-! Section: Helper lemmas -/

theorem pyOrZero_getD (x : Option Nat) : pyOrZero x = x.getD 0 := by
  cases x with
  | none => rfl
  | some n =>
    cases n with
    | zero => rfl
    | succ m => rfl

theorem headD_cons_tail {l : List String} (h : l ≠ []) :
    l.headD "" :: l.tail = l := by
  cases l with
  | nil => exact absurd rfl h
  | cons a t => rfl

theorem mem_relayEvents {e : Event} {o : Bool} {cs : List String}
    (h : e ∈ relayEvents o cs) :
    (∃ s d, e = Event.write s d) ∨ ∃ s, e = Event.flush s := by
  unfold relayEvents at h
  split at h
  · rcases List.mem_flatMap.mp h with ⟨c, _, hc⟩
    simp [Tee.write, teeFiles] at hc
    rcases hc with rfl | rfl | rfl | rfl
    · exact Or.inl ⟨Sink.stdout, c, rfl⟩
    · exact Or.inr ⟨Sink.stdout, rfl⟩
    · exact Or.inl ⟨Sink.capture, c, rfl⟩
    · exact Or.inr ⟨Sink.capture, rfl⟩
  · rcases List.mem_map.mp h with ⟨c, _, hc⟩
    exact Or.inl ⟨Sink.stdout, c, hc.symm⟩

theorem spawnedCmds_relayEvents (o : Bool) (cs : List String) :
    spawnedCmds (relayEvents o cs) = [] := by
  apply List.filterMap_eq_nil_iff.mpr
  intro e he
  rcases mem_relayEvents he with ⟨s, d, rfl⟩ | ⟨s, rfl⟩ <;> rfl

theorem sentLines_relayEvents (o : Bool) (cs : List String) :
    sentLines (relayEvents o cs) = [] := by
  apply List.filterMap_eq_nil_iff.mpr
  intro e he
  rcases mem_relayEvents he with ⟨s, d, rfl⟩ | ⟨s, rfl⟩ <;> rfl

theorem openCapture_not_mem_relayEvents (o : Bool) (cs : List String)
    (p : String) : Event.openCapture p ∉ relayEvents o cs := by
  intro h
  rcases mem_relayEvents h with ⟨s, d, h⟩ | ⟨s, h⟩ <;> cases h

theorem closeCapture_not_mem_relayEvents (o : Bool) (cs : List String) :
    Event.closeCapture ∉ relayEvents o cs := by
  intro h
  rcases mem_relayEvents h with ⟨s, d, h⟩ | ⟨s, h⟩ <;> cases h

theorem bne_empty_of_ne {s : String} (h : s ≠ "") : (s != "") = true :=
  bne_iff_ne.mpr h

@[simp] theorem spawnedCmds_nil : spawnedCmds [] = [] := rfl

@[simp] theorem spawnedCmds_append (l1 l2 : List Event) :
    spawnedCmds (l1 ++ l2) = spawnedCmds l1 ++ spawnedCmds l2 :=
  List.filterMap_append l1 l2 _

@[simp] theorem spawnedCmds_cons (e : Event) (l : List Event) :
    spawnedCmds (e :: l) =
      (match e with | Event.spawn p a => [p :: a] | _ => []) ++ spawnedCmds l := by
  cases e <;> rfl

@[simp] theorem sentLines_nil : sentLines [] = [] := rfl

@[simp] theorem sentLines_append (l1 l2 : List Event) :
    sentLines (l1 ++ l2) = sentLines l1 ++ sentLines l2 :=
  List.filterMap_append l1 l2 _

@[simp] theorem sentLines_cons (e : Event) (l : List Event) :
    sentLines (e :: l) =
      (match e with | Event.sendline s => [s ++ "\n"] | _ => []) ++ sentLines l := by
  cases e <;> rfl

@[simp] theorem sinkWrites_nil (s : Sink) : sinkWrites s [] = [] := rfl

@[simp] theorem sinkWrites_append (s : Sink) (l1 l2 : List Event) :
    sinkWrites s (l1 ++ l2) = sinkWrites s l1 ++ sinkWrites s l2 :=
  List.filterMap_append l1 l2 _

@[simp] theorem sinkWrites_cons (s : Sink) (e : Event) (l : List Event) :
    sinkWrites s (e :: l) =
      (match e with
        | Event.write s' d => if s' == s then [d] else []
        | _ => []) ++ sinkWrites s l := by
  cases e with
  | write s' d =>
    by_cases h : s' == s
    · simp only [sinkWrites, List.filterMap_cons, h, if_true]
      rfl
    · simp only [sinkWrites, List.filterMap_cons]
      rw [if_neg h, if_neg h]
      rfl
  | _ => rfl

/-- The full event trace of a fault-free run with at least one Command
argument, read off the source line by line. -/
theorem mainRun_trace (argv : List String) (prompt cp : String) (w : World)
    (h2 : 2 ≤ argv.length) (ho : (cp != "" && w.openFails) = false)
    (hs : w.spawnFails = false) (hw : w.waitFails = false) :
    (mainRun argv prompt cp w).2 =
      (if cp != "" then [Event.openCapture cp] else [])
        ++ Event.spawn
             ((if prompt != "" && hasPrint (argv.drop 1) then
                 argv.drop 1 ++ [prompt] else argv.drop 1).headD "")
             (if prompt != "" && hasPrint (argv.drop 1) then
                 argv.drop 1 ++ [prompt] else argv.drop 1).tail
          :: (if prompt != "" && !hasPrint (argv.drop 1) then
                [Event.sendline prompt] else [])
        ++ relayEvents (cp != "") w.child.chunks ++ [Event.waitEOF]
        ++ (if cp != "" then [Event.closeCapture] else []) := by
  have hlt : ¬ argv.length < 2 := by omega
  simp only [mainRun, if_neg hlt, ho, Bool.false_eq_true, if_false, hs, hw]

/-- The event trace of a run whose relay/wait phase faults after `relayDone`
chunks were relayed: the capture file, when open, is still closed. -/
theorem mainRun_trace_waitFault (argv : List String) (prompt cp : String)
    (w : World) (h2 : 2 ≤ argv.length)
    (ho : (cp != "" && w.openFails) = false)
    (hs : w.spawnFails = false) (hw : w.waitFails = true) :
    (mainRun argv prompt cp w).2 =
      (if cp != "" then [Event.openCapture cp] else [])
        ++ Event.spawn
             ((if prompt != "" && hasPrint (argv.drop 1) then
                 argv.drop 1 ++ [prompt] else argv.drop 1).headD "")
             (if prompt != "" && hasPrint (argv.drop 1) then
                 argv.drop 1 ++ [prompt] else argv.drop 1).tail
          :: (if prompt != "" && !hasPrint (argv.drop 1) then
                [Event.sendline prompt] else [])
        ++ relayEvents (cp != "") (w.child.chunks.take w.relayDone)
        ++ (if cp != "" then [Event.closeCapture] else []) := by
  have hlt : ¬ argv.length < 2 := by omega
  simp only [mainRun, if_neg hlt, ho, Bool.false_eq_true, if_false, hs, hw,
    if_true]

/-! Section: C1: exit status propagation -/

/-- C1: on any fault-free invocation with at least one Command argument, the
runner's return value is the child's exit status when one is observable, and
`0` when the child was killed by a signal (`exitstatus` is `none`). -/
theorem exit_code_propagated (argv : List String) (prompt cp : String)
    (w : World) (h2 : 2 ≤ argv.length) (ho : w.openFails = false)
    (hs : w.spawnFails = false) (hw : w.waitFails = false) :
    (mainRun argv prompt cp w).1 = some (w.child.exitstatus.getD 0) := by
  have hlt : ¬ argv.length < 2 := by omega
  simp only [mainRun, if_neg hlt, ho, Bool.and_false, Bool.false_eq_true,
    if_false, hs, hw, pyOrZero_getD]

theorem exit_code_propagated_witness :
    (mainRun ["runner", "prog"] "" "" ⟨false, false, false, 0, ⟨[], some 7⟩⟩).1
      = some 7 :=
  exit_code_propagated ["runner", "prog"] "" ""
    ⟨false, false, false, 0, ⟨[], some 7⟩⟩ (by decide) rfl rfl rfl

/-! Section: C2: usage error -/

/-- C2: with no Command arguments the runner returns exactly `2`, its trace is
exactly the one-line usage message written to stderr, and no child is ever
spawned. -/
theorem usage_error_no_spawn (argv : List String) (prompt cp : String)
    (w : World) (h : argv.length < 2) :
    mainRun argv prompt cp w = (some 2, [Event.stderrLine usageMessage]) ∧
      spawnedCmds (mainRun argv prompt cp w).2 = [] := by
  refine ⟨by simp only [mainRun, if_pos h], ?_⟩
  simp only [mainRun, if_pos h, spawnedCmds, List.filterMap_cons,
    List.filterMap_nil]

theorem usage_error_no_spawn_witness :
    mainRun ["runner"] "p" "c" ⟨false, false, false, 0, ⟨[], some 0⟩⟩
      = (some 2, [Event.stderrLine usageMessage]) :=
  (usage_error_no_spawn ["runner"] "p" "c"
    ⟨false, false, false, 0, ⟨[], some 0⟩⟩ (by decide)).1

/-! Section: C3: print mode appends the prompt -/

/-- C3: with a non-empty prompt and the print flag present in the Command, the
spawned command is exactly the original Command with the prompt appended as
one final argument, and nothing is sent to the child's input stream — whether
or not the later relay/wait phase faults. -/
theorem print_mode_appends_prompt (argv : List String) (prompt cp : String)
    (w : World) (h2 : 2 ≤ argv.length) (hprompt : prompt ≠ "")
    (hp : hasPrint (argv.drop 1) = true) (ho : w.openFails = false)
    (hs : w.spawnFails = false) :
    spawnedCmds (mainRun argv prompt cp w).2 = [argv.drop 1 ++ [prompt]] ∧
      sentLines (mainRun argv prompt cp w).2 = [] := by
  have hb := bne_empty_of_ne hprompt
  simp only [List.drop_one] at hp ⊢
  rcases hcons : argv.tail ++ [prompt] with _ | ⟨a, t⟩
  · simp at hcons
  · cases hww : w.waitFails with
    | false =>
      rw [mainRun_trace argv prompt cp w h2 (by simp [ho]) hs hww]
      constructor <;>
        simp [hb, hp, hcons, spawnedCmds_relayEvents, sentLines_relayEvents,
          apply_ite spawnedCmds, apply_ite sentLines]
    | true =>
      rw [mainRun_trace_waitFault argv prompt cp w h2 (by simp [ho]) hs hww]
      constructor <;>
        simp [hb, hp, hcons, spawnedCmds_relayEvents, sentLines_relayEvents,
          apply_ite spawnedCmds, apply_ite sentLines]

theorem print_mode_appends_prompt_witness :
    spawnedCmds (mainRun ["runner", "claude", "--print"] "hi" ""
        ⟨false, false, false, 0, ⟨[], some 0⟩⟩).2
      = [["claude", "--print", "hi"]] :=
  (print_mode_appends_prompt ["runner", "claude", "--print"] "hi" ""
    ⟨false, false, false, 0, ⟨[], some 0⟩⟩
    (by decide) (by decide) (by decide) rfl rfl).1

/-! Section: C4: interactive mode sends the prompt as one input line -/

/-- C4: with a non-empty prompt and no print flag in the Command, exactly one
line — the prompt followed by a newline terminator — is sent to the child's
input stream, after the spawn and before the wait for EOF, and the Command is
spawned unmodified. -/
theorem prompt_sent_interactive (argv : List String) (prompt cp : String)
    (w : World) (h2 : 2 ≤ argv.length) (hprompt : prompt ≠ "")
    (hp : hasPrint (argv.drop 1) = false) (ho : w.openFails = false)
    (hs : w.spawnFails = false) (hw : w.waitFails = false) :
    sentLines (mainRun argv prompt cp w).2 = [prompt ++ "\n"] ∧
      spawnedCmds (mainRun argv prompt cp w).2 = [argv.drop 1] ∧
      ∃ l1 l2, (mainRun argv prompt cp w).2
          = l1 ++ Event.sendline prompt :: l2 ∧
        Event.spawn ((argv.drop 1).headD "") (argv.drop 1).tail ∈ l1 ∧
        Event.waitEOF ∈ l2 := by
  have hb := bne_empty_of_ne hprompt
  simp only [List.drop_one] at hp ⊢
  rcases hcons : argv.tail with _ | ⟨a, t⟩
  · exfalso
    have := congrArg List.length hcons
    simp at this
    omega
  rw [hcons] at hp
  rw [mainRun_trace argv prompt cp w h2 (by simp [ho]) hs hw]
  refine ⟨?_, ?_,
    (if cp != "" then [Event.openCapture cp] else [])
      ++ [Event.spawn (argv.tail.headD "") argv.tail.tail],
    relayEvents (cp != "") w.child.chunks ++ [Event.waitEOF]
      ++ (if cp != "" then [Event.closeCapture] else []), ?_, ?_, ?_⟩
  · simp [hb, hp, hcons, sentLines_relayEvents, apply_ite sentLines]
  · simp [hb, hp, hcons, spawnedCmds_relayEvents, apply_ite spawnedCmds]
  · simp [hb, hp, hcons]
  · simp [hcons]
  · simp

theorem prompt_sent_interactive_witness :
    sentLines (mainRun ["runner", "claude"] "hello" "cap"
        ⟨false, false, false, 0, ⟨["out"], some 0⟩⟩).2
      = ["hello" ++ "\n"] :=
  (prompt_sent_interactive ["runner", "claude"] "hello" "cap"
    ⟨false, false, false, 0, ⟨["out"], some 0⟩⟩
    (by decide) (by decide) (by decide) rfl rfl rfl).1

/-! Section: C5: the capture file is closed exactly once on every exit path -/

theorem count_closeCapture_relayEvents (o : Bool) (cs : List String) :
    (relayEvents o cs).count Event.closeCapture = 0 :=
  List.count_eq_zero.mpr (closeCapture_not_mem_relayEvents o cs)

/-- C5: on every execution path — normal completion, spawn fault, or a fault
during relay/wait — if the capture file was opened, the trace contains exactly
one close of it (the `finally` block). -/
theorem capture_closed_exactly_once (argv : List String) (prompt cp : String)
    (w : World)
    (h : ∃ p, Event.openCapture p ∈ (mainRun argv prompt cp w).2) :
    ((mainRun argv prompt cp w).2).count Event.closeCapture = 1 := by
  by_cases hlt : argv.length < 2
  · rcases h with ⟨p, hmem⟩
    simp [mainRun, if_pos hlt] at hmem
  · have h2 : 2 ≤ argv.length := by omega
    by_cases hcp : cp = ""
    · exfalso
      rcases h with ⟨p, hmem⟩
      have hbcp : (cp != "") = false := by simp [hcp]
      cases hos : w.spawnFails with
      | true =>
        simp [mainRun, if_neg hlt, hbcp, hos] at hmem
      | false =>
        cases how : w.waitFails with
        | true =>
          rw [mainRun_trace_waitFault argv prompt cp w h2
            (by simp [hcp]) hos how] at hmem
          simp [hbcp, relayEvents,
            apply_ite (fun l => Event.openCapture p ∈ l)] at hmem
          rcases List.mem_map.mp (List.mem_of_mem_take hmem) with ⟨c, _, hc⟩
          cases hc
        | false =>
          rw [mainRun_trace argv prompt cp w h2
            (by simp [hcp]) hos how] at hmem
          simp [hbcp, relayEvents,
            apply_ite (fun l => Event.openCapture p ∈ l)] at hmem
    · have hbcp := bne_empty_of_ne hcp
      by_cases hof : w.openFails = true
      · exfalso
        rcases h with ⟨p, hmem⟩
        simp [mainRun, if_neg hlt, hbcp, hof] at hmem
      · have hof' : w.openFails = false := by
          cases hx : w.openFails
          · rfl
          · exact absurd hx hof
        cases hos : w.spawnFails with
        | true =>
          simp [mainRun, if_neg hlt, hbcp, hof', hos, List.count_cons]
        | false =>
          cases how : w.waitFails with
          | true =>
            rw [mainRun_trace_waitFault argv prompt cp w h2 (by simp [hof']) hos how]
            simp [hbcp, List.count_append, List.count_cons,
              count_closeCapture_relayEvents,
              apply_ite (List.count Event.closeCapture)]
          | false =>
            rw [mainRun_trace argv prompt cp w h2 (by simp [hof']) hos how]
            simp [hbcp, List.count_append, List.count_cons,
              count_closeCapture_relayEvents,
              apply_ite (List.count Event.closeCapture)]

theorem capture_closed_exactly_once_witness :
    ((mainRun ["runner", "prog"] "" "cap"
        ⟨false, false, false, 0, ⟨["x"], some 0⟩⟩).2).count Event.closeCapture
      = 1 :=
  capture_closed_exactly_once ["runner", "prog"] "" "cap"
    ⟨false, false, false, 0, ⟨["x"], some 0⟩⟩ ⟨"cap", by decide⟩

/-! Section: C9: the capture file is opened before the child is spawned -/

/-- C9: with a capture path present, a failed open means the child is never
spawned and the fault propagates with an empty trace; when the open succeeds
it is the very first event — strictly before any spawn — and if the spawn then
faults, the capture file exists, is empty, and has been closed when the fault
propagates. -/
theorem open_before_spawn (argv : List String) (prompt cp : String) (w : World)
    (h2 : 2 ≤ argv.length) (hcp : cp ≠ "") :
    (w.openFails = true → mainRun argv prompt cp w = (none, [])) ∧
      (w.openFails = false →
        ((mainRun argv prompt cp w).2).head? = some (Event.openCapture cp)) ∧
      (w.openFails = false → w.spawnFails = true →
        mainRun argv prompt cp w
            = (none, [Event.openCapture cp, Event.closeCapture]) ∧
          fileAfter none (mainRun argv prompt cp w).2 = some []) := by
  have hlt : ¬ argv.length < 2 := by omega
  have hbcp := bne_empty_of_ne hcp
  refine ⟨fun hof => ?_, fun hof => ?_, fun hof hsp => ?_⟩
  · simp [mainRun, if_neg hlt, hbcp, hof]
  · cases hos : w.spawnFails with
    | true => simp [mainRun, if_neg hlt, hbcp, hof, hos]
    | false =>
      cases how : w.waitFails with
      | true =>
        rw [mainRun_trace_waitFault argv prompt cp w h2 (by simp [hof]) hos how]
        simp [hbcp]
      | false =>
        rw [mainRun_trace argv prompt cp w h2 (by simp [hof]) hos how]
        simp [hbcp]
  · have htr : mainRun argv prompt cp w
        = (none, [Event.openCapture cp, Event.closeCapture]) := by
      simp [mainRun, if_neg hlt, hbcp, hof, hsp]
    refine ⟨htr, ?_⟩
    rw [htr]
    rfl

theorem open_before_spawn_witness :
    mainRun ["runner", "prog"] "" "cap" ⟨false, true, false, 0, ⟨[], none⟩⟩
      = (none, [Event.openCapture "cap", Event.closeCapture]) :=
  ((open_before_spawn ["runner", "prog"] "" "cap"
    ⟨false, true, false, 0, ⟨[], none⟩⟩
    (by decide) (by decide)).2.2 rfl rfl).1

/-! Section: C10: print-flag detection is exact membership over the whole Command -/

/-- C10: `has_print` is plain token membership over the entire Command
sequence, element 0 (the program name) included: a program literally named
`--print` triggers print mode, while a flag embedded in a longer token such as
`--printer` never matches; concretely, invoking with Command `["--print"]` and
a non-empty prompt spawns `--print` with the prompt appended and sends no
input line. -/
theorem print_flag_membership :
    (∀ cmd : List String, hasPrint cmd = true ↔ "--print" ∈ cmd ∨ "-p" ∈ cmd) ∧
      (∀ args : List String, hasPrint ("--print" :: args) = true) ∧
      hasPrint ["--printer"] = false ∧
      spawnedCmds (mainRun ["runner", "--print"] "hi" ""
          ⟨false, false, false, 0, ⟨[], some 0⟩⟩).2 = [["--print", "hi"]] ∧
      sentLines (mainRun ["runner", "--print"] "hi" ""
          ⟨false, false, false, 0, ⟨[], some 0⟩⟩).2 = [] := by
  refine ⟨fun cmd => ?_, fun args => ?_, by decide, by decide, by decide⟩
  · simp [hasPrint, List.contains]
  · simp [hasPrint, List.contains]

/-! Section: C6: tee relay — both sinks, immediate flush, faithful contents -/

theorem sinkWrites_teeRelay (s : Sink) (cs : List String) :
    sinkWrites s (cs.flatMap (Tee.write ⟨teeFiles⟩)) = cs := by
  induction cs with
  | nil => rfl
  | cons d cs ih =>
    rw [List.flatMap_cons, sinkWrites_append, ih]
    cases s <;> simp [Tee.write, teeFiles]

theorem writesFlushed_cons (e : Event) (l : List Event)
    (h : ∀ s d, e ≠ Event.write s d) :
    writesFlushed (e :: l) = writesFlushed l := by
  cases e <;> first | rfl | exact absurd rfl (h _ _)

theorem writesFlushed_teeWrite (d : String) (rest : List Event) :
    writesFlushed (Tee.write ⟨teeFiles⟩ d ++ rest) = writesFlushed rest := rfl

theorem writesFlushed_teeRelay (cs : List String) (rest : List Event) :
    writesFlushed (cs.flatMap (Tee.write ⟨teeFiles⟩) ++ rest)
      = writesFlushed rest := by
  induction cs with
  | nil => rfl
  | cons d cs ih =>
    rw [List.flatMap_cons, List.append_assoc, writesFlushed_teeWrite, ih]

theorem fileAfter_no_open (l : List Event)
    (h : ∀ p, Event.openCapture p ∉ l) (t : List String) :
    fileAfter (some t) l = some (t ++ sinkWrites Sink.capture l) := by
  induction l generalizing t with
  | nil => simp [fileAfter]
  | cons e l ih =>
    have h' : ∀ p, Event.openCapture p ∉ l := fun p hp =>
      h p (List.mem_cons_of_mem _ hp)
    cases e with
    | openCapture p => exact absurd (List.mem_cons_self _ _) (h p)
    | write s d =>
      cases s with
      | stdout =>
        rw [show fileAfter (some t) (Event.write Sink.stdout d :: l)
          = fileAfter (some t) l from rfl, ih h']
        simp
      | capture =>
        rw [show fileAfter (some t) (Event.write Sink.capture d :: l)
          = fileAfter (some (t ++ [d])) l from rfl, ih h']
        simp
    | stderrLine s =>
      rw [show fileAfter (some t) (Event.stderrLine s :: l)
        = fileAfter (some t) l from rfl, ih h']
      simp
    | spawn p a =>
      rw [show fileAfter (some t) (Event.spawn p a :: l)
        = fileAfter (some t) l from rfl, ih h']
      simp
    | flush s =>
      rw [show fileAfter (some t) (Event.flush s :: l)
        = fileAfter (some t) l from rfl, ih h']
      simp
    | sendline s =>
      rw [show fileAfter (some t) (Event.sendline s :: l)
        = fileAfter (some t) l from rfl, ih h']
      simp
    | waitEOF =>
      rw [show fileAfter (some t) (Event.waitEOF :: l)
        = fileAfter (some t) l from rfl, ih h']
      simp
    | closeCapture =>
      rw [show fileAfter (some t) (Event.closeCapture :: l)
        = fileAfter (some t) l from rfl, ih h']
      simp

/-- Opening the capture file (mode `"w"`) truncates it whatever it held — or
whether it existed — before; afterwards it holds exactly the capture-sink
writes of the rest of the trace. -/
theorem fileAfter_open_cons (c : Option (List String)) (p : String)
    (l : List Event) (h : ∀ q, Event.openCapture q ∉ l) :
    fileAfter c (Event.openCapture p :: l) = some (sinkWrites Sink.capture l) := by
  rw [show fileAfter c (Event.openCapture p :: l) = fileAfter (some []) l from rfl,
    fileAfter_no_open l h []]
  simp

/-- On any fault-free capture run, whatever the capture file held (or whether
it existed) beforehand, afterwards it holds exactly the child's output
chunks. -/
theorem fileAfter_mainRun_success (argv : List String) (prompt cp : String)
    (w : World) (c : Option (List String)) (h2 : 2 ≤ argv.length)
    (hcp : cp ≠ "") (ho : w.openFails = false) (hs : w.spawnFails = false)
    (hw : w.waitFails = false) :
    fileAfter c (mainRun argv prompt cp w).2 = some w.child.chunks := by
  have hbcp := bne_empty_of_ne hcp
  have hpre : (if cp != "" then [Event.openCapture cp] else ([] : List Event))
      = [Event.openCapture cp] := by simp [hbcp]
  have hfin : (if cp != "" then [Event.closeCapture] else ([] : List Event))
      = [Event.closeCapture] := by simp [hbcp]
  have hrel : relayEvents (cp != "") w.child.chunks
      = w.child.chunks.flatMap (Tee.write ⟨teeFiles⟩) := by
    simp [relayEvents, hbcp]
  rw [mainRun_trace argv prompt cp w h2 (by simp [ho]) hs hw, hpre, hfin, hrel]
  simp only [List.cons_append, List.singleton_append, List.append_assoc,
    List.nil_append]
  rw [fileAfter_open_cons]
  · simp [sinkWrites_teeRelay, apply_ite (sinkWrites Sink.capture)]
  · intro q hq
    simp [Tee.write, teeFiles,
      apply_ite (fun l => Event.openCapture q ∈ l)] at hq

/-- C6: on a fault-free capture run, the sequence of chunks written to the
capture sink and to the real stdout each equal the child's output chunks, in
order; every individual write is immediately followed by a flush of that same
sink, whatever the chunk boundaries; and the capture file's final contents
equal the child's output stream. -/
theorem tee_mirrors_and_flushes (argv : List String) (prompt cp : String)
    (w : World) (h2 : 2 ≤ argv.length) (hcp : cp ≠ "")
    (ho : w.openFails = false) (hs : w.spawnFails = false)
    (hw : w.waitFails = false) :
    sinkWrites Sink.capture (mainRun argv prompt cp w).2 = w.child.chunks ∧
      sinkWrites Sink.stdout (mainRun argv prompt cp w).2 = w.child.chunks ∧
      writesFlushed (mainRun argv prompt cp w).2 = true ∧
      fileAfter none (mainRun argv prompt cp w).2 = some w.child.chunks := by
  have hbcp := bne_empty_of_ne hcp
  have hpre : (if cp != "" then [Event.openCapture cp] else ([] : List Event))
      = [Event.openCapture cp] := by simp [hbcp]
  have hfin : (if cp != "" then [Event.closeCapture] else ([] : List Event))
      = [Event.closeCapture] := by simp [hbcp]
  have hrel : relayEvents (cp != "") w.child.chunks
      = w.child.chunks.flatMap (Tee.write ⟨teeFiles⟩) := by
    simp [relayEvents, hbcp]
  refine ⟨?_, ?_, ?_,
    fileAfter_mainRun_success argv prompt cp w none h2 hcp ho hs hw⟩
  all_goals
    rw [mainRun_trace argv prompt cp w h2 (by simp [ho]) hs hw, hpre, hfin, hrel]
  · simp [sinkWrites_teeRelay, apply_ite (sinkWrites Sink.capture)]
  · simp [sinkWrites_teeRelay, apply_ite (sinkWrites Sink.stdout)]
  · simp only [List.cons_append, List.singleton_append, List.append_assoc,
      List.nil_append]
    cases hse : (prompt != "" && !hasPrint (argv.drop 1)) with
    | true =>
      rw [if_pos rfl]
      simp only [List.cons_append, List.singleton_append, List.nil_append]
      rw [writesFlushed_cons _ _ (fun s d h => by cases h),
        writesFlushed_cons _ _ (fun s d h => by cases h),
        writesFlushed_cons _ _ (fun s d h => by cases h),
        writesFlushed_teeRelay]
      rfl
    | false =>
      simp only [hse, Bool.false_eq_true, if_false, List.nil_append]
      rw [writesFlushed_cons _ _ (fun s d h => by cases h),
        writesFlushed_cons _ _ (fun s d h => by cases h),
        writesFlushed_teeRelay]
      rfl

theorem tee_mirrors_and_flushes_witness :
    sinkWrites Sink.capture (mainRun ["runner", "prog"] "" "cap"
        ⟨false, false, false, 0, ⟨["a", "b"], some 0⟩⟩).2 = ["a", "b"] :=
  (tee_mirrors_and_flushes ["runner", "prog"] "" "cap"
    ⟨false, false, false, 0, ⟨["a", "b"], some 0⟩⟩
    (by decide) (by decide) rfl rfl rfl).1

/-! Section: C7: the capture file is truncated at the start of each run -/

/-- C7: running the runner twice in succession against the same capture path
leaves the file holding only the second run's output — whatever the file held
initially and whatever the first run did — because mode `"w"` truncates the
file when it is opened at the start of each run. -/
theorem capture_truncated_each_run (argv1 argv2 : List String)
    (prompt1 prompt2 cp : String) (w1 w2 : World) (f0 : Option (List String))
    (h2 : 2 ≤ argv2.length) (hcp : cp ≠ "") (ho : w2.openFails = false)
    (hs : w2.spawnFails = false) (hw : w2.waitFails = false) :
    fileAfter (fileAfter f0 (mainRun argv1 prompt1 cp w1).2)
        (mainRun argv2 prompt2 cp w2).2 = some w2.child.chunks :=
  fileAfter_mainRun_success argv2 prompt2 cp w2 _ h2 hcp ho hs hw

theorem capture_truncated_each_run_witness :
    fileAfter (fileAfter (some ["old"]) (mainRun ["runner", "prog"] "" "cap"
          ⟨false, false, false, 0, ⟨["first"], some 0⟩⟩).2)
        (mainRun ["runner", "prog"] "" "cap"
          ⟨false, false, false, 0, ⟨["second"], some 1⟩⟩).2
      = some ["second"] :=
  capture_truncated_each_run ["runner", "prog"] ["runner", "prog"] "" "" "cap"
    ⟨false, false, false, 0, ⟨["first"], some 0⟩⟩
    ⟨false, false, false, 0, ⟨["second"], some 1⟩⟩ (some ["old"])
    (by decide) (by decide) rfl rfl rfl

/-! Section: C8: undecodable child output makes the relay raise (code bug) -/

/-- A Python text error handler, as selectable via `errors=` on `open` and
`codec_errors=` on `pexpect.spawn`: `strict` raises on an unconvertible unit,
`replace` substitutes a replacement character. -/
inductive CodecPolicy
  | strict
  | replace
  deriving DecidableEq

/-- The Unicode replacement character U+FFFD. -/
def replacementChar : Char := Char.ofNat 0xFFFD

/-- The encode-only error handler of the capture file,
`open(capture_path, "w", encoding="utf-8", errors="replace")`: the file is
opened for writing, so this handler applies when encoding already-decoded
text for the file and is never applied to the child's raw output bytes. -/
def captureOpenErrors : CodecPolicy := CodecPolicy.replace

/-- The error handler that actually decodes the child's output bytes: the
script's spawn call, `pexpect.spawn(cmd[0], cmd[1:], encoding="utf-8",
timeout=None)`, omits the `codec_errors` parameter, so the library default
`codec_errors="strict"` applies to the decoder attached to the child's
stream. -/
def spawnCodecErrors : CodecPolicy := CodecPolicy.strict

/-- Applying an error policy to raw text units, where `none` stands for a byte
sequence that cannot be converted as text: `strict` fails (returns `none`,
modelling a raised error) as soon as any unit is unconvertible, while
`replace` always succeeds, substituting the replacement character for each
unconvertible unit. -/
def applyPolicy : CodecPolicy → List (Option Char) → Option (List Char)
  | CodecPolicy.strict, raw =>
    if none ∈ raw then none
    else some (raw.map fun u => u.getD replacementChar)
  | CodecPolicy.replace, raw =>
    some (raw.map fun u => u.getD replacementChar)

/-- C8 (code bug): on any child output containing an undecodable byte
sequence, the decoder the script actually configures for the child's stream —
pexpect's, left at its `strict` default — fails (raises) instead of
substituting a replacement character, so the relay fails and nothing is
captured; the capture file's `errors="replace"` handler never sees the raw
bytes. The tolerance the spec describes is exactly what the `replace` policy
would produce had it been passed as `codec_errors`. -/
theorem decode_errors_not_tolerated (raw : List (Option Char))
    (h : none ∈ raw) :
    applyPolicy spawnCodecErrors raw = none ∧
      applyPolicy CodecPolicy.replace raw
        = some (raw.map fun u => u.getD replacementChar) :=
  ⟨by simp [applyPolicy, spawnCodecErrors, h], rfl⟩

theorem decode_errors_not_tolerated_witness :
    applyPolicy spawnCodecErrors [some 'a', none, some 'b'] = none ∧
      applyPolicy CodecPolicy.replace [some 'a', none, some 'b']
        = some ['a', replacementChar, 'b'] :=
  decode_errors_not_tolerated [some 'a', none, some 'b'] (by decide)

end ClaudePexpect
